import Mathlib

/-!
Verification of the LifePilot task-suggestion, task-prioritization and
schedule back-calculation logic.

The definitions below are shallow embeddings of the TypeScript source:
- `suggestTask` embeds the mood dispatch of `fetchSuggestedTask`
  (component `SuggestedTask`), operating on the list of incomplete tasks
  returned by the query (the query itself filters `completed = false` and
  orders by creation time descending; the list argument here is that list).
- `sortTasksByMood` embeds the full-list prioritizer `sortTasksByMood` of
  the first `TaskList` component.  ECMAScript `Array.prototype.sort` is
  required to be stable, and a stable sort under a total preorder
  comparator is uniquely determined, so it is modelled by the stable
  `List.mergeSort`.
- `computeSchedule`, `eventUpdate`, `processEvents`, `applyUpdates` embed
  the `calculate-travel` serverless function.

Instants are modelled as `Int` milliseconds since the Unix epoch, exactly
as the source manipulates them through `Date.getTime()`.
-/

namespace LifePilot

inductive Priority where
  | low
  | medium
  | high
deriving DecidableEq, Repr

structure Task where
  id : Nat
  title : String
  priority : Priority
  difficulty : Int
  estimated_time : Option Int
  completed : Bool
deriving DecidableEq, Repr

/-- The reduction step of the low-mood branch:
`(prev, current) => current.difficulty < prev.difficulty ? current : prev`. -/
def easiestStep (prev current : Task) : Task :=
  if current.difficulty < prev.difficulty then current else prev

/-- JavaScript `arr.reduce(f)` with no initial value: the head seeds the
accumulator and the fold runs over the tail. -/
def reduceEasiest (prev : Task) (l : List Task) : Task :=
  l.foldl easiestStep prev

/-- Embedding of the mood dispatch of `fetchSuggestedTask`.  `tasks` is the
fetched list of incomplete tasks.  Mirrors the source branch for branch:
empty list gives no suggestion; `mood <= 2` reduces the easy tasks to the
one with smallest difficulty; `mood === 3` takes the first medium-priority
task falling back to the first task; otherwise the high-mood branch first
restricts to hard tasks when any exist, picks the first high-priority one
among the chosen pool, and falls back to the first task overall. -/
def suggestTask (mood : Int) (tasks : List Task) : Option Task :=
  if tasks.length = 0 then none
  else if mood ≤ 2 then
    match tasks.filter (fun t => decide (t.difficulty ≤ 3)) with
    | [] => none
    | h :: rest => some (reduceEasiest h rest)
  else if mood = 3 then
    match tasks.filter (fun t => decide (t.priority = Priority.medium)) with
    | [] => tasks.head?
    | m :: _ => some m
  else
    let hardTasks := tasks.filter (fun t => decide (4 ≤ t.difficulty))
    let highPriorityTasks :=
      if 0 < hardTasks.length then
        hardTasks.filter (fun t => decide (t.priority = Priority.high))
      else
        tasks.filter (fun t => decide (t.priority = Priority.high))
    match highPriorityTasks with
    | [] => tasks.head?
    | h :: _ => some h

/-- Specification-side description used for the low band: the first task of
the list whose difficulty is a lower bound for the whole list, that is the
first task attaining the minimum difficulty (ties resolved to the first in
input order). -/
def firstMinDifficulty (l : List Task) : Option Task :=
  l.find? (fun t => l.all (fun u => decide (t.difficulty ≤ u.difficulty)))

/-- Auxiliary predicate: difficulty at most `m`. -/
def leDiff (m : Int) : Task → Bool := fun t => decide (t.difficulty ≤ m)

/-- The priority weight table `{ high: 3, medium: 2, low: 1 }` of the
full-list prioritizer. -/
def priorityWeight : Priority → Int
  | Priority.high => 3
  | Priority.medium => 2
  | Priority.low => 1

/-- The score `priorityWeight[p] * 10 + difficulty` computed inside both
scored branches of `sortTasksByMood`. -/
def moodScore (t : Task) : Int :=
  priorityWeight t.priority * 10 + t.difficulty

/-- Embedding of `sortTasksByMood` of the first `TaskList` component: drop
completed tasks; for `mood <= 2` keep only tasks of difficulty at most 3
and sort ascending by difficulty; for `mood === 3` and for the remaining
moods sort all incomplete tasks descending by `moodScore`.  The two scored
branches are duplicated in the source and are kept duplicated here.  The
stable JavaScript sort is modelled by the stable `List.mergeSort`. -/
def sortTasksByMood (tasks : List Task) (mood : Int) : List Task :=
  let incompleteTasks := tasks.filter (fun t => !t.completed)
  if mood ≤ 2 then
    (incompleteTasks.filter (fun t => decide (t.difficulty ≤ 3))).mergeSort
      (fun a b => decide (a.difficulty ≤ b.difficulty))
  else if mood = 3 then
    incompleteTasks.mergeSort (fun a b => decide (moodScore b ≤ moodScore a))
  else
    incompleteTasks.mergeSort (fun a b => decide (moodScore b ≤ moodScore a))

/-- The four instants derived by the `calculate-travel` function for one
event.  All times are `Int` milliseconds since the epoch. -/
structure ScheduleChain where
  leaveTime : Int
  getReadyTime : Int
  cookStartTime : Int
  wakeUpTime : Int
deriving DecidableEq, Repr

/-- Embedding of the back-calculation chain of `calculate-travel`:
`travelWithBuffer = travelSeconds + travel_buffer_time * 60` seconds,
`leaveTime = eventStart - travelWithBuffer * 1000` milliseconds, and each
further instant subtracts the corresponding number of minutes. -/
def computeSchedule (eventStartMs travelSeconds travelBufferTime gettingReadyTime
    cookingTime wakeUpMargin : Int) : ScheduleChain :=
  let travelWithBuffer := travelSeconds + travelBufferTime * 60
  let leaveTime := eventStartMs - travelWithBuffer * 1000
  let getReadyTime := leaveTime - gettingReadyTime * 60 * 1000
  let cookStartTime := getReadyTime - cookingTime * 60 * 1000
  let wakeUpTime := cookStartTime - wakeUpMargin * 60 * 1000
  ⟨leaveTime, getReadyTime, cookStartTime, wakeUpTime⟩

/-- Subtraction of whole seconds from an instant in milliseconds, the
spec-side reading of step 1 of the back-calculator. -/
def subSeconds (t s : Int) : Int := t - s * 1000

/-- Subtraction of whole minutes from an instant in milliseconds, the
spec-side reading of steps 2 to 4 of the back-calculator. -/
def subMinutes (t m : Int) : Int := t - m * 60 * 1000

/-- One leg of a directions route; only `duration.value` (seconds) is read
by the source. -/
structure DirectionsLeg where
  durationValue : Int
deriving DecidableEq, Repr

structure DirectionsRoute where
  legs : List DirectionsLeg
deriving DecidableEq, Repr

/-- The part of the Google Directions response read by the source:
`data.status` and `data.routes`. -/
structure DirectionsData where
  status : String
  routes : List DirectionsRoute
deriving DecidableEq, Repr

/-- Outcome of the per-event routing lookup: `Except.error` models the
`fetch` or JSON parsing throwing, `Except.ok` a parsed response. -/
abbrev RoutingOutcome := Except String DirectionsData

/-- The routine-duration columns read from the profile (minutes). -/
structure Profile where
  travel_buffer_time : Int
  getting_ready_time : Int
  cooking_time : Int
  wake_up_margin : Int
deriving DecidableEq, Repr

/-- A calendar event row as manipulated by `calculate-travel`.  Instants
are `Int` milliseconds.  Bookkeeping columns maintained by database
triggers (`updated_at` and friends) are outside this model. -/
structure CalendarEvent where
  id : Nat
  user_id : Nat
  google_event_id : String
  title : String
  description : Option String
  start_time : Int
  end_time : Int
  location : Option String
  travel_time_seconds : Option Int
  recommended_leave_time : Option Int
deriving DecidableEq, Repr

/-- The record pushed onto `updates` for a successfully routed event: only
the event id, the travel seconds and the recommended leave time. -/
structure Update where
  id : Nat
  travel_time_seconds : Int
  recommended_leave_time : Int
deriving DecidableEq, Repr

/-- The body of the per-event loop of `calculate-travel`.  A thrown
routing call (`Except.error`), a status other than `OK`, an empty route
list or an empty leg list (an index error, caught by the per-event
`catch`) produce no update; otherwise the schedule chain is computed and
only `travelSeconds` and `leaveTime` are recorded. -/
def eventUpdate (profile : Profile) (event : CalendarEvent)
    (resp : RoutingOutcome) : Option Update :=
  match resp with
  | Except.error _ => none
  | Except.ok data =>
    if data.status = "OK" ∧ 0 < data.routes.length then
      match data.routes.head? with
      | none => none
      | some route =>
        match route.legs.head? with
        | none => none
        | some leg =>
          let travelSeconds := leg.durationValue
          let chain := computeSchedule event.start_time travelSeconds
            profile.travel_buffer_time profile.getting_ready_time
            profile.cooking_time profile.wake_up_margin
          some ⟨event.id, travelSeconds, chain.leaveTime⟩
    else none

/-- The whole per-event loop: each event is paired with the outcome of its
routing lookup, and successful events push one update onto the
accumulator, exactly as the source `for ... of` loop does. -/
def processEvents (profile : Profile)
    (events : List (CalendarEvent × RoutingOutcome)) : List Update :=
  events.foldl (fun updates er =>
    match eventUpdate profile er.1 er.2 with
    | some u => updates ++ [u]
    | none => updates) []

/-- The aggregate count returned by the function: `{ updated: updates.length }`. -/
def updatedCount (profile : Profile)
    (events : List (CalendarEvent × RoutingOutcome)) : Nat :=
  (processEvents profile events).length

/-- A routing lookup that failed in one of the ways the claim lists: the
call threw, or the response status is not `OK`, or there are no routes. -/
def routingFailed (resp : RoutingOutcome) : Bool :=
  match resp with
  | Except.error _ => true
  | Except.ok data => !(data.status == "OK" && decide (0 < data.routes.length))

/-- The `UPDATE calendar_events SET travel_time_seconds = ..,
recommended_leave_time = .. WHERE id = ..` statement applied to one row. -/
def applyUpdate (e : CalendarEvent) (u : Update) : CalendarEvent :=
  if e.id = u.id then
    { e with
      travel_time_seconds := some u.travel_time_seconds,
      recommended_leave_time := some u.recommended_leave_time }
  else e

/-- The write-back loop: every update statement is run against the table
in order. -/
def applyUpdates (db : List CalendarEvent) (us : List Update) : List CalendarEvent :=
  us.foldl (fun db u => db.map (fun e => applyUpdate e u)) db

/-! Sample data used by the concrete witnesses and the counterexample. -/

/-- A hard low-priority task. -/
def taskHardLow : Task := ⟨0, "refactor backlog", Priority.low, 5, none, false⟩

/-- An easy high-priority task. -/
def taskEasyHigh : Task := ⟨1, "send invoice", Priority.high, 1, some 10, false⟩

/-- An easy medium-priority task. -/
def taskEasyMedium : Task := ⟨2, "water plants", Priority.medium, 2, some 5, false⟩

/-- A completed task. -/
def taskDone : Task := ⟨3, "old chore", Priority.low, 1, none, true⟩

/-- A hard high-priority task. -/
def taskHardHigh : Task := ⟨4, "write report", Priority.high, 4, some 60, false⟩

/-- Sample routine durations: 15 minutes buffer, 45 getting ready,
30 cooking, 30 wake-up margin. -/
def sampleProfile : Profile := ⟨15, 45, 30, 30⟩

/-- A sample event starting at 2024-01-01T18:00:00Z
(1704132000000 milliseconds since the epoch). -/
def sampleEvent (n : Nat) : CalendarEvent :=
  ⟨n, 7, "gev", "appointment", none, 1704132000000, 1704135600000,
    some "downtown", none, none⟩

/-- A successful routing outcome with a 1800 second leg. -/
def okOutcome : RoutingOutcome :=
  Except.ok ⟨"OK", [⟨[⟨1800⟩]⟩]⟩

/-- A routing outcome whose status is not `OK`. -/
def failedOutcome : RoutingOutcome :=
  Except.ok ⟨"ZERO_RESULTS", []⟩

/-- The five-event batch of the claim: routing fails for the middle event
only. -/
def sampleBatch : List (CalendarEvent × RoutingOutcome) :=
  [(sampleEvent 0, okOutcome), (sampleEvent 1, okOutcome),
   (sampleEvent 2, failedOutcome), (sampleEvent 3, okOutcome),
   (sampleEvent 4, okOutcome)]


/-- Decidable equality of routing outcomes, used by the concrete batch
witnesses. -/
instance : DecidableEq (Except String DirectionsData) := fun a b =>
  match a, b with
  | Except.error x, Except.error y =>
    match decEq x y with
    | isTrue h => isTrue (h ▸ rfl)
    | isFalse h => isFalse (fun hh => h (Except.error.inj hh))
  | Except.ok x, Except.ok y =>
    match decEq x y with
    | isTrue h => isTrue (h ▸ rfl)
    | isFalse h => isFalse (fun hh => h (Except.ok.inj hh))
  | Except.error _, Except.ok _ => isFalse (fun hh => Except.noConfusion hh)
  | Except.ok _, Except.error _ => isFalse (fun hh => Except.noConfusion hh)

/-! ### Helper lemmas about the low-band reduction -/

theorem easiestStep_le_left (p c : Task) : (easiestStep p c).difficulty ≤ p.difficulty := by
  unfold easiestStep; split <;> omega

theorem easiestStep_le_right (p c : Task) : (easiestStep p c).difficulty ≤ c.difficulty := by
  unfold easiestStep; split <;> omega

theorem reduceEasiest_cons (p c : Task) (l : List Task) :
    reduceEasiest p (c :: l) = reduceEasiest (easiestStep p c) l := rfl

theorem reduceEasiest_mem (l : List Task) : ∀ p : Task, reduceEasiest p l ∈ p :: l := by
  induction l with
  | nil => intro p; simp [reduceEasiest]
  | cons c tl ih =>
    intro p
    rw [reduceEasiest_cons]
    have h := ih (easiestStep p c)
    rcases List.mem_cons.mp h with h1 | h1
    · rw [h1]
      unfold easiestStep
      split
      · exact List.mem_cons_of_mem _ (List.mem_cons_self _ _)
      · exact List.mem_cons_self _ _
    · exact List.mem_cons_of_mem _ (List.mem_cons_of_mem _ h1)

theorem reduceEasiest_le (l : List Task) :
    ∀ p t : Task, t ∈ p :: l → (reduceEasiest p l).difficulty ≤ t.difficulty := by
  induction l with
  | nil =>
    intro p t ht
    rcases List.mem_cons.mp ht with h | h
    · rw [h]; simp [reduceEasiest]
    · simp at h
  | cons c tl ih =>
    intro p t ht
    rw [reduceEasiest_cons]
    rcases List.mem_cons.mp ht with h | h
    · rw [h]
      exact le_trans (ih (easiestStep p c) _ (List.mem_cons_self _ _)) (easiestStep_le_left p c)
    · rcases List.mem_cons.mp h with h1 | h1
      · rw [h1]
        exact le_trans (ih (easiestStep p c) _ (List.mem_cons_self _ _)) (easiestStep_le_right p c)
      · exact ih (easiestStep p c) t (List.mem_cons_of_mem _ h1)

theorem findConsPos (pred : Task → Bool) (a : Task) (l : List Task) (h : pred a = true) :
    (a :: l).find? pred = some a := by
  simp [List.find?, h]

theorem findConsNeg (pred : Task → Bool) (a : Task) (l : List Task) (h : pred a = false) :
    (a :: l).find? pred = l.find? pred := by
  simp [List.find?, h]

theorem reduceEasiest_eq_find (l : List Task) : ∀ p : Task,
    (p :: l).find? (leDiff (reduceEasiest p l).difficulty) = some (reduceEasiest p l) := by
  induction l with
  | nil => intro p; simp [reduceEasiest, leDiff]
  | cons c tl ih =>
    intro p
    rw [reduceEasiest_cons]
    by_cases hc : c.difficulty < p.difficulty
    · have hq : easiestStep p c = c := by simp [easiestStep, hc]
      rw [hq]
      have hmin : (reduceEasiest c tl).difficulty ≤ c.difficulty :=
        reduceEasiest_le tl c c (List.mem_cons_self _ _)
      have h1 : leDiff (reduceEasiest c tl).difficulty p = false := by
        simp only [leDiff, decide_eq_false_iff_not]
        omega
      rw [findConsNeg _ p (c :: tl) h1]
      exact ih c
    · have hq : easiestStep p c = p := by simp [easiestStep, hc]
      rw [hq]
      have hmin : (reduceEasiest p tl).difficulty ≤ p.difficulty :=
        reduceEasiest_le tl p p (List.mem_cons_self _ _)
      by_cases hp : p.difficulty ≤ (reduceEasiest p tl).difficulty
      · have hpp : reduceEasiest p tl = p := by
          have key := ih p
          rw [findConsPos _ p tl (by simp [leDiff, hp])] at key
          exact (Option.some.inj key).symm
        rw [hpp]
        exact findConsPos _ p (c :: tl) (by simp [leDiff])
      · have h1 : leDiff (reduceEasiest p tl).difficulty p = false := by
          simp only [leDiff, decide_eq_false_iff_not]
          omega
        have h2 : leDiff (reduceEasiest p tl).difficulty c = false := by
          simp only [leDiff, decide_eq_false_iff_not]
          omega
        rw [findConsNeg _ p (c :: tl) h1, findConsNeg _ c tl h2]
        have key := ih p
        rw [findConsNeg _ p tl h1] at key
        exact key

theorem findCongrOn (p q : Task → Bool) :
    ∀ (l : List Task), (∀ x ∈ l, p x = q x) → l.find? p = l.find? q := by
  intro l
  induction l with
  | nil => intro h; rfl
  | cons a tl ih =>
    intro h
    have ha := h a (List.mem_cons_self _ _)
    cases hpa : p a with
    | true =>
      rw [findConsPos p a tl hpa, findConsPos q a tl (by rw [← ha]; exact hpa)]
    | false =>
      rw [findConsNeg p a tl hpa, findConsNeg q a tl (by rw [← ha]; exact hpa),
        ih (fun x hx => h x (List.mem_cons_of_mem _ hx))]

theorem firstMin_eq_reduceEasiest (p : Task) (l : List Task) :
    firstMinDifficulty (p :: l) = some (reduceEasiest p l) := by
  unfold firstMinDifficulty
  rw [findCongrOn (fun t => (p :: l).all (fun u => decide (t.difficulty ≤ u.difficulty)))
      (leDiff (reduceEasiest p l).difficulty) (p :: l) ?agree]
  · exact reduceEasiest_eq_find l p
  case agree =>
    intro x hx
    rw [Bool.eq_iff_iff]
    simp only [leDiff, List.all_eq_true, decide_eq_true_eq]
    constructor
    · intro h
      exact h _ (reduceEasiest_mem l p)
    · intro h u hu
      exact le_trans h (reduceEasiest_le l p u hu)

theorem headFilterEqFind (pred : Task → Bool) :
    ∀ l : List Task, (l.filter pred).head? = l.find? pred := by
  intro l
  induction l with
  | nil => rfl
  | cons a tl ih =>
    cases hpa : pred a with
    | true => simp [List.filter_cons, hpa]
    | false => simp [List.filter_cons, hpa, ih]

/-! ### Claims about the single-suggestion operation -/

/-- Claim C5: for mood at most 2 the single-suggestion operation returns
the first task attaining the minimum difficulty among tasks of difficulty
at most 3 (ties resolved to the first encountered in input order), and
none when no task qualifies, even if other tasks exist. -/
theorem suggest_low_band_min_difficulty (mood : Int) (tasks : List Task) (hm : mood ≤ 2) :
    suggestTask mood tasks =
      firstMinDifficulty (tasks.filter (fun t => decide (t.difficulty ≤ 3))) := by
  unfold suggestTask
  by_cases he : tasks.length = 0
  · rw [List.length_eq_zero.mp he]
    simp [firstMinDifficulty]
  · rw [if_neg he, if_pos hm]
    cases hf : tasks.filter (fun t => decide (t.difficulty ≤ 3)) with
    | nil => simp [firstMinDifficulty]
    | cons hd rest => rw [firstMin_eq_reduceEasiest]

/-- Witness for claim C5 at mood 2 and three incomplete tasks. -/
theorem suggest_low_band_min_difficulty_witness :
    ((2 : Int) ≤ 2 ∧
      suggestTask 2 [taskHardLow, taskEasyHigh, taskEasyMedium] =
        firstMinDifficulty ([taskHardLow, taskEasyHigh, taskEasyMedium].filter
          (fun t => decide (t.difficulty ≤ 3)))) ∧
    suggestTask 2 [taskHardLow, taskEasyHigh, taskEasyMedium] = some taskEasyHigh :=
  ⟨⟨by decide, suggest_low_band_min_difficulty 2 [taskHardLow, taskEasyHigh, taskEasyMedium]
      (by decide)⟩, by decide⟩

/-- Claim C6: for mood 3 and a non-empty task list, the single-suggestion
operation returns the first medium-priority task, falling back to the
first task overall; a suggestion is always produced. -/
theorem suggest_neutral_band_first_medium (tasks : List Task) (h : tasks ≠ []) :
    suggestTask 3 tasks =
      (tasks.find? (fun t => decide (t.priority = Priority.medium))).or tasks.head? ∧
    (suggestTask 3 tasks).isSome = true := by
  have he : ¬ tasks.length = 0 := by simpa using h
  have hmain : suggestTask 3 tasks =
      (tasks.find? (fun t => decide (t.priority = Priority.medium))).or tasks.head? := by
    unfold suggestTask
    rw [if_neg he, if_neg (by omega), if_pos rfl]
    rw [← headFilterEqFind]
    cases hf : tasks.filter (fun t => decide (t.priority = Priority.medium)) with
    | nil => simp
    | cons m rest => simp
  refine ⟨hmain, ?_⟩
  rw [hmain]
  cases hfind : tasks.find? (fun t => decide (t.priority = Priority.medium)) with
  | some m => simp [Option.or]
  | none =>
    simp only [Option.or]
    cases tasks with
    | nil => exact absurd rfl h
    | cons a tl => simp

/-- Witness for claim C6: the medium task is suggested although a
higher-priority task is first. -/
theorem suggest_neutral_band_first_medium_witness :
    ([taskEasyHigh, taskEasyMedium] ≠ ([] : List Task) ∧
      (suggestTask 3 [taskEasyHigh, taskEasyMedium] =
        (([taskEasyHigh, taskEasyMedium].find?
          (fun t => decide (t.priority = Priority.medium))).or
            [taskEasyHigh, taskEasyMedium].head?) ∧
      (suggestTask 3 [taskEasyHigh, taskEasyMedium]).isSome = true)) ∧
    suggestTask 3 [taskEasyHigh, taskEasyMedium] = some taskEasyMedium :=
  ⟨⟨by decide, suggest_neutral_band_first_medium [taskEasyHigh, taskEasyMedium] (by decide)⟩,
    by decide⟩

/-- Counterexample to claim C1 as stated: in `[taskHardLow, taskEasyHigh]`
no task has difficulty at least 4 together with high priority, and the
first (indeed only) high-priority task is `taskEasyHigh`, so the claim
requires the suggestion `taskEasyHigh`; the code suggests `taskHardLow`
because a hard task exists and the high-priority fallback is then searched
only among the hard tasks. -/
theorem suggest_high_band_claim_counterexample :
    (∀ t ∈ [taskHardLow, taskEasyHigh], ¬(4 ≤ t.difficulty ∧ t.priority = Priority.high)) ∧
    taskEasyHigh.priority = Priority.high ∧
    [taskHardLow, taskEasyHigh].find? (fun t => decide (t.priority = Priority.high)) =
      some taskEasyHigh ∧
    suggestTask 5 [taskHardLow, taskEasyHigh] = some taskHardLow ∧
    suggestTask 5 [taskHardLow, taskEasyHigh] ≠ some taskEasyHigh := by
  decide

/-- Claim C1, amended: for mood at least 4 and a non-empty task list, when
at least one task has difficulty at least 4 the operation returns the
first task with difficulty at least 4 and high priority, falling back to
the first task overall; only when no task has difficulty at least 4 does
it return the first high-priority task, falling back to the first task
overall. -/
theorem suggest_high_band_amended (mood : Int) (tasks : List Task) (hm : 4 ≤ mood)
    (h : tasks ≠ []) :
    suggestTask mood tasks =
      (if (tasks.filter (fun t => decide (4 ≤ t.difficulty))).length = 0 then
        (tasks.find? (fun t => decide (t.priority = Priority.high))).or tasks.head?
      else
        (tasks.find? (fun t =>
          decide (t.priority = Priority.high) && decide (4 ≤ t.difficulty))).or
            tasks.head?) := by
  have he : ¬ tasks.length = 0 := by simpa using h
  have h2 : ¬ mood ≤ 2 := by omega
  have h3 : ¬ mood = 3 := by omega
  unfold suggestTask
  rw [if_neg he, if_neg h2, if_neg h3]
  by_cases hhard : (tasks.filter (fun t => decide (4 ≤ t.difficulty))).length = 0
  · rw [if_pos hhard]
    have hlt : ¬ 0 < (tasks.filter (fun t => decide (4 ≤ t.difficulty))).length := by omega
    simp only [hlt, if_false]
    rw [← headFilterEqFind]
    cases hfil : tasks.filter (fun t => decide (t.priority = Priority.high)) with
    | nil => simp
    | cons m rest => simp [Option.or]
  · rw [if_neg hhard]
    have hlt : 0 < (tasks.filter (fun t => decide (4 ≤ t.difficulty))).length :=
      Nat.pos_of_ne_zero hhard
    simp only [hlt, if_true]
    rw [List.filter_filter, ← headFilterEqFind]
    cases hfil : tasks.filter (fun a =>
        decide (a.priority = Priority.high) && decide (4 ≤ a.difficulty)) with
    | nil => simp
    | cons m rest => simp [Option.or]

/-- Witness for the amended claim C1: a hard task exists but no hard task
has high priority, so the code falls back to the first task overall even
though an easy high-priority task is present. -/
theorem suggest_high_band_amended_witness :
    ((4 : Int) ≤ 5 ∧ [taskHardLow, taskEasyHigh] ≠ ([] : List Task) ∧
      suggestTask 5 [taskHardLow, taskEasyHigh] =
        (if ([taskHardLow, taskEasyHigh].filter
            (fun t => decide (4 ≤ t.difficulty))).length = 0 then
          ([taskHardLow, taskEasyHigh].find?
            (fun t => decide (t.priority = Priority.high))).or
              [taskHardLow, taskEasyHigh].head?
        else
          ([taskHardLow, taskEasyHigh].find? (fun t =>
            decide (t.priority = Priority.high) && decide (4 ≤ t.difficulty))).or
              [taskHardLow, taskEasyHigh].head?)) ∧
    suggestTask 5 [taskHardLow, taskEasyHigh] = some taskHardLow :=
  ⟨⟨by decide, by decide,
    suggest_high_band_amended 5 [taskHardLow, taskEasyHigh] (by decide) (by decide)⟩,
    by decide⟩

/-- Bands of the mood dispatch agree pairwise: any two moods at most 2
give the same suggestion. -/
theorem suggestTask_low_eq (m1 m2 : Int) (tasks : List Task) (h1 : m1 ≤ 2) (h2 : m2 ≤ 2) :
    suggestTask m1 tasks = suggestTask m2 tasks := by
  unfold suggestTask
  by_cases he : tasks.length = 0
  · rw [if_pos he, if_pos he]
  · rw [if_neg he, if_neg he, if_pos h1, if_pos h2]

/-- Bands of the mood dispatch agree pairwise: any two moods that are
neither at most 2 nor equal to 3 give the same suggestion. -/
theorem suggestTask_high_eq (m1 m2 : Int) (tasks : List Task)
    (h1 : ¬ m1 ≤ 2) (h1b : ¬ m1 = 3) (h2 : ¬ m2 ≤ 2) (h2b : ¬ m2 = 3) :
    suggestTask m1 tasks = suggestTask m2 tasks := by
  unfold suggestTask
  by_cases he : tasks.length = 0
  · rw [if_pos he, if_pos he]
  · rw [if_neg he, if_neg he, if_neg h1, if_neg h2, if_neg h1b, if_neg h2b]

/-- Claim C10: the mood dispatch is total over all integers, every mood is
treated exactly like its clamp to the range 1 to 5, and the three bands
are mood at most 2, mood equal to 3, and everything else. -/
theorem suggest_mood_dispatch_total (mood : Int) (tasks : List Task) :
    suggestTask mood tasks = suggestTask (max 1 (min 5 mood)) tasks ∧
    suggestTask mood tasks =
      (if mood ≤ 2 then suggestTask 1 tasks
       else if mood = 3 then suggestTask 3 tasks
       else suggestTask 5 tasks) := by
  constructor
  · by_cases hm2 : mood ≤ 2
    · exact suggestTask_low_eq _ _ tasks hm2 (by omega)
    · by_cases hm3 : mood = 3
      · rw [hm3]
        norm_num
      · exact suggestTask_high_eq _ _ tasks hm2 hm3 (by omega) (by omega)
  · by_cases hm2 : mood ≤ 2
    · rw [if_pos hm2]
      exact suggestTask_low_eq _ _ tasks hm2 (by omega)
    · rw [if_neg hm2]
      by_cases hm3 : mood = 3
      · rw [if_pos hm3, hm3]
      · rw [if_neg hm3]
        exact suggestTask_high_eq _ _ tasks hm2 hm3 (by omega) (by omega)

/-! ### Claims about the full-list prioritizer -/

theorem ascTrans : ∀ a b c : Task,
    decide (a.difficulty ≤ b.difficulty) → decide (b.difficulty ≤ c.difficulty) →
    decide (a.difficulty ≤ c.difficulty) := by
  intro a b c hab hbc
  simp only [decide_eq_true_eq] at *
  omega

theorem ascTotal : ∀ a b : Task,
    decide (a.difficulty ≤ b.difficulty) || decide (b.difficulty ≤ a.difficulty) := by
  intro a b
  simp only [Bool.or_eq_true, decide_eq_true_eq]
  omega

theorem descTrans : ∀ a b c : Task,
    decide (moodScore b ≤ moodScore a) → decide (moodScore c ≤ moodScore b) →
    decide (moodScore c ≤ moodScore a) := by
  intro a b c hab hbc
  simp only [decide_eq_true_eq] at *
  omega

theorem descTotal : ∀ a b : Task,
    decide (moodScore b ≤ moodScore a) || decide (moodScore a ≤ moodScore b) := by
  intro a b
  simp only [Bool.or_eq_true, decide_eq_true_eq]
  omega

theorem scoredSortFacts (l : List Task) :
    (l.mergeSort (fun a b => decide (moodScore b ≤ moodScore a))).length = l.length ∧
    (l.mergeSort (fun a b => decide (moodScore b ≤ moodScore a))).Pairwise
      (fun a b => moodScore b ≤ moodScore a) ∧
    ∀ a b : Task, moodScore a = moodScore b →
      [a, b].Sublist l →
      [a, b].Sublist (l.mergeSort (fun a b => decide (moodScore b ≤ moodScore a))) := by
  refine ⟨?_, ?_, ?_⟩
  · exact (List.mergeSort_perm l _).length_eq
  · exact (List.sorted_mergeSort descTrans descTotal l).imp (by intro a b h; simpa using h)
  · intro a b hscore hsub
    exact List.pair_sublist_mergeSort descTrans descTotal (by simp [hscore]) hsub

/-- Claim C7: for mood 1 or 2 the full-list prioritizer outputs exactly
the incomplete tasks of difficulty at most 3, in ascending difficulty
order; harder and completed tasks are excluded entirely. -/
theorem prioritizer_low_band (tasks : List Task) (mood : Int)
    (hm : mood = 1 ∨ mood = 2) :
    (sortTasksByMood tasks mood).Perm
      (tasks.filter (fun t => !t.completed && decide (t.difficulty ≤ 3))) ∧
    (sortTasksByMood tasks mood).Pairwise (fun a b => a.difficulty ≤ b.difficulty) ∧
    ∀ t ∈ sortTasksByMood tasks mood, t.completed = false ∧ t.difficulty ≤ 3 := by
  have hm2 : mood ≤ 2 := by rcases hm with h | h <;> omega
  have hout : sortTasksByMood tasks mood =
      ((tasks.filter (fun t => !t.completed)).filter
        (fun t => decide (t.difficulty ≤ 3))).mergeSort
          (fun a b => decide (a.difficulty ≤ b.difficulty)) := by
    unfold sortTasksByMood
    rw [if_pos hm2]
  rw [hout]
  refine ⟨?_, ?_, ?_⟩
  · have hperm := List.mergeSort_perm
      ((tasks.filter (fun t => !t.completed)).filter (fun t => decide (t.difficulty ≤ 3)))
      (fun a b => decide (a.difficulty ≤ b.difficulty))
    refine hperm.trans ?_
    rw [List.filter_filter]
    exact List.Perm.of_eq (List.filter_congr (by intro x hx; rw [Bool.and_comm]))
  · have hs := List.sorted_mergeSort ascTrans ascTotal
      ((tasks.filter (fun t => !t.completed)).filter (fun t => decide (t.difficulty ≤ 3)))
    exact hs.imp (by intro a b h; simpa using h)
  · intro t ht
    rw [List.mem_mergeSort, List.mem_filter, List.mem_filter] at ht
    rcases ht with ⟨⟨ht1, ht2⟩, ht3⟩
    constructor
    · simpa using ht2
    · simpa using ht3

/-- Witness for claim C7 at mood 1: the hard task and the completed task
are dropped and the easy tasks appear in ascending difficulty order. -/
theorem prioritizer_low_band_witness :
    (((1 : Int) = 1 ∨ (1 : Int) = 2) ∧
      (sortTasksByMood [taskHardLow, taskEasyHigh, taskEasyMedium, taskDone] 1).Perm
        ([taskHardLow, taskEasyHigh, taskEasyMedium, taskDone].filter
          (fun t => !t.completed && decide (t.difficulty ≤ 3)))) ∧
    sortTasksByMood [taskHardLow, taskEasyHigh, taskEasyMedium, taskDone] 1 =
      [taskEasyHigh, taskEasyMedium] :=
  ⟨⟨Or.inl rfl,
    (prioritizer_low_band [taskHardLow, taskEasyHigh, taskEasyMedium, taskDone] 1
      (Or.inl rfl)).1⟩,
    by simp [sortTasksByMood, List.mergeSort, taskHardLow, taskEasyHigh, taskEasyMedium,
      taskDone, List.filter]⟩

/-- Claim C8: for mood 3 or at least 4 the full-list prioritizer keeps
every incomplete task, sorts descending by the score
`priorityWeight * 10 + difficulty`, and tasks of equal score retain their
relative input order. -/
theorem prioritizer_scored_band (tasks : List Task) (mood : Int)
    (hm : mood = 3 ∨ 4 ≤ mood) :
    (sortTasksByMood tasks mood).length = (tasks.filter (fun t => !t.completed)).length ∧
    (sortTasksByMood tasks mood).Pairwise (fun a b => moodScore b ≤ moodScore a) ∧
    ∀ a b : Task, moodScore a = moodScore b →
      [a, b].Sublist (tasks.filter (fun t => !t.completed)) →
      [a, b].Sublist (sortTasksByMood tasks mood) := by
  have hout : sortTasksByMood tasks mood =
      (tasks.filter (fun t => !t.completed)).mergeSort
        (fun a b => decide (moodScore b ≤ moodScore a)) := by
    unfold sortTasksByMood
    rcases hm with h3 | h4
    · rw [if_neg (by omega), if_pos h3]
    · rw [if_neg (by omega), if_neg (by omega)]
  rw [hout]
  exact scoredSortFacts (tasks.filter (fun t => !t.completed))

/-- Witness for claim C8 at mood 3: all incomplete tasks are kept and
ordered by descending score 34, 31, 22. -/
theorem prioritizer_scored_band_witness :
    (((3 : Int) = 3 ∨ (4 : Int) ≤ 3) ∧
      (sortTasksByMood [taskEasyMedium, taskHardHigh, taskEasyHigh, taskDone] 3).length =
        ([taskEasyMedium, taskHardHigh, taskEasyHigh, taskDone].filter
          (fun t => !t.completed)).length) ∧
    sortTasksByMood [taskEasyMedium, taskHardHigh, taskEasyHigh, taskDone] 3 =
      [taskHardHigh, taskEasyHigh, taskEasyMedium] :=
  ⟨⟨Or.inl rfl,
    (prioritizer_scored_band [taskEasyMedium, taskHardHigh, taskEasyHigh, taskDone] 3
      (Or.inl rfl)).1⟩,
    by simp [sortTasksByMood, List.mergeSort, taskEasyMedium, taskHardHigh, taskEasyHigh,
      taskDone, List.filter, moodScore, priorityWeight, List.merge]⟩

/-! ### Claims about the schedule back-calculator -/

/-- Claim C2: the back-calculator derives the four instants in the fixed
order leave, get ready, cook start, wake up, each by subtracting the
corresponding duration from the previous instant. -/
theorem schedule_chain_equations (eventStartMs travelSeconds buffer ready cooking margin : Int)
    (h1 : 0 ≤ travelSeconds) (h2 : 0 ≤ buffer) (h3 : 0 ≤ ready)
    (h4 : 0 ≤ cooking) (h5 : 0 ≤ margin) :
    (computeSchedule eventStartMs travelSeconds buffer ready cooking margin).leaveTime =
      subSeconds eventStartMs (travelSeconds + buffer * 60) ∧
    (computeSchedule eventStartMs travelSeconds buffer ready cooking margin).getReadyTime =
      subMinutes
        (computeSchedule eventStartMs travelSeconds buffer ready cooking margin).leaveTime
        ready ∧
    (computeSchedule eventStartMs travelSeconds buffer ready cooking margin).cookStartTime =
      subMinutes
        (computeSchedule eventStartMs travelSeconds buffer ready cooking margin).getReadyTime
        cooking ∧
    (computeSchedule eventStartMs travelSeconds buffer ready cooking margin).wakeUpTime =
      subMinutes
        (computeSchedule eventStartMs travelSeconds buffer ready cooking margin).cookStartTime
        margin :=
  ⟨rfl, rfl, rfl, rfl⟩

/-- Witness for claim C2 at the spec example: event start
2024-01-01T18:00:00Z (1704132000000 ms), 1800 s travel, 15 min buffer,
45 min getting ready, 30 min cooking, 30 min margin give the chain
17:15:00Z, 16:30:00Z, 16:00:00Z, 15:30:00Z. -/
theorem schedule_chain_equations_witness :
    ((0 : Int) ≤ 1800 ∧ (0 : Int) ≤ 15 ∧ (0 : Int) ≤ 45 ∧ (0 : Int) ≤ 30 ∧ (0 : Int) ≤ 30 ∧
      (computeSchedule 1704132000000 1800 15 45 30 30).leaveTime =
        subSeconds 1704132000000 (1800 + 15 * 60)) ∧
    computeSchedule 1704132000000 1800 15 45 30 30 =
      ⟨1704129300000, 1704126600000, 1704124800000, 1704123000000⟩ :=
  ⟨⟨by decide, by decide, by decide, by decide, by decide,
    (schedule_chain_equations 1704132000000 1800 15 45 30 30 (by decide) (by decide)
      (by decide) (by decide) (by decide)).1⟩, by decide⟩

/-- Claim C3: for non-negative durations the four instants are ordered
wake up, cook start, get ready, leave, event start. -/
theorem schedule_chain_monotone (eventStartMs travelSeconds buffer ready cooking margin : Int)
    (h1 : 0 ≤ travelSeconds) (h2 : 0 ≤ buffer) (h3 : 0 ≤ ready)
    (h4 : 0 ≤ cooking) (h5 : 0 ≤ margin) :
    (computeSchedule eventStartMs travelSeconds buffer ready cooking margin).wakeUpTime ≤
      (computeSchedule eventStartMs travelSeconds buffer ready cooking margin).cookStartTime ∧
    (computeSchedule eventStartMs travelSeconds buffer ready cooking margin).cookStartTime ≤
      (computeSchedule eventStartMs travelSeconds buffer ready cooking margin).getReadyTime ∧
    (computeSchedule eventStartMs travelSeconds buffer ready cooking margin).getReadyTime ≤
      (computeSchedule eventStartMs travelSeconds buffer ready cooking margin).leaveTime ∧
    (computeSchedule eventStartMs travelSeconds buffer ready cooking margin).leaveTime ≤
      eventStartMs := by
  simp only [computeSchedule]
  refine ⟨?_, ?_, ?_, ?_⟩ <;> omega

/-- Witness for claim C3 at the spec example inputs. -/
theorem schedule_chain_monotone_witness :
    ((0 : Int) ≤ 1800 ∧ (0 : Int) ≤ 15 ∧ (0 : Int) ≤ 45 ∧ (0 : Int) ≤ 30 ∧ (0 : Int) ≤ 30) ∧
    ((computeSchedule 1704132000000 1800 15 45 30 30).wakeUpTime ≤
      (computeSchedule 1704132000000 1800 15 45 30 30).cookStartTime ∧
    (computeSchedule 1704132000000 1800 15 45 30 30).cookStartTime ≤
      (computeSchedule 1704132000000 1800 15 45 30 30).getReadyTime ∧
    (computeSchedule 1704132000000 1800 15 45 30 30).getReadyTime ≤
      (computeSchedule 1704132000000 1800 15 45 30 30).leaveTime ∧
    (computeSchedule 1704132000000 1800 15 45 30 30).leaveTime ≤ 1704132000000) :=
  ⟨⟨by decide, by decide, by decide, by decide, by decide⟩,
    schedule_chain_monotone 1704132000000 1800 15 45 30 30 (by decide) (by decide)
      (by decide) (by decide) (by decide)⟩

/-! ### Claims about the batch travel computation -/

theorem eventUpdate_none_of_failed (profile : Profile) (event : CalendarEvent)
    (r : RoutingOutcome) (h : routingFailed r = true) :
    eventUpdate profile event r = none := by
  cases r with
  | error e => rfl
  | ok data =>
    have hcond : ¬ (data.status = "OK" ∧ 0 < data.routes.length) := by
      have h2 : ¬ data.status = "OK" ∨ data.routes = [] := by simpa [routingFailed] using h
      rintro ⟨hs, hlen⟩
      rcases h2 with h2 | h2
      · exact h2 hs
      · rw [h2] at hlen
        simp at hlen
    simp only [eventUpdate]
    rw [if_neg hcond]

theorem foldlPushEq (profile : Profile) :
    ∀ (l : List (CalendarEvent × RoutingOutcome)) (acc : List Update),
      l.foldl (fun updates er =>
        match eventUpdate profile er.1 er.2 with
        | some u => updates ++ [u]
        | none => updates) acc =
      acc ++ l.filterMap (fun er => eventUpdate profile er.1 er.2) := by
  intro l
  induction l with
  | nil => intro acc; simp
  | cons e tl ih =>
    intro acc
    cases h : eventUpdate profile e.1 e.2 with
    | some u => simp [List.foldl_cons, List.filterMap_cons, h, ih]
    | none => simp [List.foldl_cons, List.filterMap_cons, h, ih]

theorem lengthFilterMapEqCountSome (f : CalendarEvent × RoutingOutcome → Option Update) :
    ∀ l : List (CalendarEvent × RoutingOutcome),
      (l.filterMap f).length = (l.filter (fun a => (f a).isSome)).length := by
  intro l
  induction l with
  | nil => rfl
  | cons a tl ih =>
    cases h : f a with
    | some u => simp [List.filterMap_cons, List.filter_cons, h, ih]
    | none => simp [List.filterMap_cons, List.filter_cons, h, ih]

theorem processEventsEqFilterMap (profile : Profile)
    (events : List (CalendarEvent × RoutingOutcome)) :
    processEvents profile events =
      events.filterMap (fun er => eventUpdate profile er.1 er.2) := by
  unfold processEvents
  rw [foldlPushEq]
  simp

/-- Claim C4: a failed routing lookup produces no update for its event,
the batch is the update list of exactly the successful events in order,
and the reported count is the number of successful events. -/
theorem batch_failure_isolation (profile : Profile)
    (events : List (CalendarEvent × RoutingOutcome)) (e : CalendarEvent)
    (r : RoutingOutcome) (hmem : (e, r) ∈ events) (hfail : routingFailed r = true) :
    eventUpdate profile e r = none ∧
    processEvents profile events =
      events.filterMap (fun er => eventUpdate profile er.1 er.2) ∧
    updatedCount profile events =
      (events.filter (fun er => (eventUpdate profile er.1 er.2).isSome)).length := by
  refine ⟨eventUpdate_none_of_failed profile e r hfail,
    processEventsEqFilterMap profile events, ?_⟩
  unfold updatedCount
  rw [processEventsEqFilterMap]
  exact lengthFilterMapEqCountSome _ events

/-- Witness for claim C4: five events with exactly one routing failure
yield four updates and the count 4. -/
theorem batch_failure_isolation_witness :
    ((sampleEvent 2, failedOutcome) ∈ sampleBatch ∧ routingFailed failedOutcome = true ∧
      eventUpdate sampleProfile (sampleEvent 2) failedOutcome = none) ∧
    updatedCount sampleProfile sampleBatch = 4 ∧
    processEvents sampleProfile sampleBatch =
      [⟨0, 1800, 1704129300000⟩, ⟨1, 1800, 1704129300000⟩,
       ⟨3, 1800, 1704129300000⟩, ⟨4, 1800, 1704129300000⟩] :=
  ⟨⟨by decide, by decide,
    (batch_failure_isolation sampleProfile sampleBatch (sampleEvent 2) failedOutcome
      (by decide) (by decide)).1⟩, by decide, by decide⟩

theorem eventUpdate_id (profile : Profile) (event : CalendarEvent) (r : RoutingOutcome)
    (u : Update) (h : eventUpdate profile event r = some u) : u.id = event.id := by
  cases r with
  | error msg => simp [eventUpdate] at h
  | ok data =>
    simp only [eventUpdate] at h
    by_cases hI : data.status = "OK" ∧ 0 < data.routes.length
    · rw [if_pos hI] at h
      cases hr : data.routes.head? with
      | none => rw [hr] at h; simp at h
      | some route =>
        rw [hr] at h
        simp only at h
        cases hl : route.legs.head? with
        | none => rw [hl] at h; simp at h
        | some leg =>
          rw [hl] at h
          simp only [Option.some.injEq] at h
          rw [← h]
    · rw [if_neg hI] at h
      simp at h

theorem applyUpdate_frame (e : CalendarEvent) (u : Update) :
    (applyUpdate e u).id = e.id ∧ (applyUpdate e u).user_id = e.user_id ∧
    (applyUpdate e u).google_event_id = e.google_event_id ∧
    (applyUpdate e u).title = e.title ∧ (applyUpdate e u).description = e.description ∧
    (applyUpdate e u).start_time = e.start_time ∧
    (applyUpdate e u).end_time = e.end_time ∧
    (applyUpdate e u).location = e.location := by
  unfold applyUpdate
  split <;> simp

theorem foldlApplyUpdate_frame (us : List Update) :
    ∀ e : CalendarEvent,
    ((us.foldl applyUpdate e).id = e.id ∧ (us.foldl applyUpdate e).user_id = e.user_id ∧
    (us.foldl applyUpdate e).google_event_id = e.google_event_id ∧
    (us.foldl applyUpdate e).title = e.title ∧
    (us.foldl applyUpdate e).description = e.description ∧
    (us.foldl applyUpdate e).start_time = e.start_time ∧
    (us.foldl applyUpdate e).end_time = e.end_time ∧
    (us.foldl applyUpdate e).location = e.location) := by
  induction us with
  | nil => intro e; simp
  | cons u tl ih =>
    intro e
    simp only [List.foldl_cons]
    have h1 := applyUpdate_frame e u
    have h2 := ih (applyUpdate e u)
    exact ⟨h2.1.trans h1.1, (h2.2.1).trans h1.2.1, (h2.2.2.1).trans h1.2.2.1,
      (h2.2.2.2.1).trans h1.2.2.2.1, (h2.2.2.2.2.1).trans h1.2.2.2.2.1,
      (h2.2.2.2.2.2.1).trans h1.2.2.2.2.2.1,
      (h2.2.2.2.2.2.2.1).trans h1.2.2.2.2.2.2.1,
      (h2.2.2.2.2.2.2.2).trans h1.2.2.2.2.2.2.2⟩

theorem foldlApplyUpdate_miss (us : List Update) :
    ∀ e : CalendarEvent, (∀ u ∈ us, ¬ u.id = e.id) → us.foldl applyUpdate e = e := by
  induction us with
  | nil => intro e h; rfl
  | cons u tl ih =>
    intro e h
    simp only [List.foldl_cons]
    have hu : applyUpdate e u = e := by
      unfold applyUpdate
      rw [if_neg]
      intro hh
      exact h u (List.mem_cons_self _ _) hh.symm
    rw [hu]
    exact ih e (fun v hv => h v (List.mem_cons_of_mem _ hv))

theorem applyUpdates_eq_map (us : List Update) :
    ∀ db : List CalendarEvent,
      applyUpdates db us = db.map (fun e => us.foldl applyUpdate e) := by
  induction us with
  | nil => intro db; simp [applyUpdates]
  | cons u tl ih =>
    intro db
    unfold applyUpdates
    simp only [List.foldl_cons]
    have hmap := ih (db.map (fun e => applyUpdate e u))
    unfold applyUpdates at hmap
    rw [hmap, List.map_map]
    rfl

/-- Claim C9: the write-back touches only the `travel_time_seconds` and
`recommended_leave_time` columns of each row (every other field of every
row is unchanged, as is the row count), and a row whose routing lookup
failed is not written at all.  The intermediate get-ready, cook-start and
wake-up instants do not occur in the `Update` record, which carries only
the event id, the travel seconds and the leave time. -/
theorem batch_update_frame (profile : Profile)
    (events : List (CalendarEvent × RoutingOutcome)) (db : List CalendarEvent)
    (e : CalendarEvent) (r : RoutingOutcome)
    (hmem : (e, r) ∈ events) (hfail : routingFailed r = true)
    (huniq : ∀ er ∈ events,
      (er : CalendarEvent × RoutingOutcome).1.id = e.id → er = (e, r)) :
    applyUpdates db (processEvents profile events) =
      db.map (fun ev => (processEvents profile events).foldl applyUpdate ev) ∧
    (applyUpdates db (processEvents profile events)).length = db.length ∧
    (∀ ev : CalendarEvent,
      ((processEvents profile events).foldl applyUpdate ev).id = ev.id ∧
      ((processEvents profile events).foldl applyUpdate ev).user_id = ev.user_id ∧
      ((processEvents profile events).foldl applyUpdate ev).google_event_id =
        ev.google_event_id ∧
      ((processEvents profile events).foldl applyUpdate ev).title = ev.title ∧
      ((processEvents profile events).foldl applyUpdate ev).description = ev.description ∧
      ((processEvents profile events).foldl applyUpdate ev).start_time = ev.start_time ∧
      ((processEvents profile events).foldl applyUpdate ev).end_time = ev.end_time ∧
      ((processEvents profile events).foldl applyUpdate ev).location = ev.location) ∧
    (∀ ev : CalendarEvent, ev.id = e.id →
      (processEvents profile events).foldl applyUpdate ev = ev) := by
  have hnone : eventUpdate profile e r = none := eventUpdate_none_of_failed profile e r hfail
  have hnoid : ∀ u ∈ processEvents profile events, ¬ u.id = e.id := by
    intro u hu hid
    rw [processEventsEqFilterMap, List.mem_filterMap] at hu
    obtain ⟨er, hermem, herup⟩ := hu
    have hid2 : u.id = er.1.id := eventUpdate_id profile er.1 er.2 u herup
    have her : er = (e, r) := huniq er hermem (by rw [← hid2, hid])
    rw [her, hnone] at herup
    exact Option.noConfusion herup
  refine ⟨applyUpdates_eq_map _ db, ?_, ?_, ?_⟩
  · rw [applyUpdates_eq_map]
    exact List.length_map db _
  · intro ev
    exact foldlApplyUpdate_frame (processEvents profile events) ev
  · intro ev hev
    exact foldlApplyUpdate_miss (processEvents profile events) ev
      (fun u hu hid => hnoid u hu (hid.trans hev))

/-- Witness for claim C9: applying the batch updates to a table holding
the successfully routed event 0 and the failed event 2 rewrites only the
two travel columns of event 0 and leaves event 2 untouched. -/
theorem batch_update_frame_witness :
    ((sampleEvent 2, failedOutcome) ∈ sampleBatch ∧ routingFailed failedOutcome = true ∧
      (∀ er ∈ sampleBatch,
        (er : CalendarEvent × RoutingOutcome).1.id = (sampleEvent 2).id →
          er = (sampleEvent 2, failedOutcome)) ∧
      (applyUpdates [sampleEvent 0, sampleEvent 2]
        (processEvents sampleProfile sampleBatch)).length =
          [sampleEvent 0, sampleEvent 2].length) ∧
    applyUpdates [sampleEvent 0, sampleEvent 2] (processEvents sampleProfile sampleBatch) =
      [{ sampleEvent 0 with
          travel_time_seconds := some 1800,
          recommended_leave_time := some 1704129300000 },
        sampleEvent 2] :=
  ⟨⟨by decide, by decide, by decide,
    (batch_update_frame sampleProfile sampleBatch [sampleEvent 0, sampleEvent 2]
      (sampleEvent 2) failedOutcome (by decide) (by decide) (by decide)).2.1⟩,
    by decide⟩

end LifePilot
